import Mathlib

/-!
Shallow embedding of the color-parsing and text-layout logic of the
`glyphy` repository (`src/glyphy/mod.rs`).

Modelling choices:
* Rust strings are modelled as `List Char` (all inputs of interest are
  ASCII, where the byte slice `s[1..]` is the tail of the char list).
* `f32` values are modelled exactly over `ℚ`; every constant appearing in
  the source (`1.5`, `30.0`, `255.0`, byte values `0..255`) and every
  derived value is exactly representable, so the algebraic claims are
  faithfully captured.
* The two `panic` sites of `hex_str_to_rgba` are modelled as the spec's
  error taxonomy: the format-check panic as `InvalidFormat`, the
  `hex::decode ... expect` panic as `DecodeError`; `Glyphy::render`'s
  `unwrap` on an empty entry list as `LayoutPrecondition`.
-/

/-- Errors of the color parser, following the spec's taxonomy: the
`panic!("{} is not in hex format", s)` branch is `InvalidFormat`, the
`hex::decode(chunk).expect(...)` branch is `DecodeError`. -/
inductive ParseError where
  | InvalidFormat
  | DecodeError
deriving DecidableEq

/-- Error of the layout planner: `Glyphy::render` calls
`texts.iter().max_by_key(...).unwrap()`, which fails on an empty vector. -/
inductive LayoutError where
  | LayoutPrecondition
deriving DecidableEq

/-- The character class `[a-fA-F0-9]` of the regex in `hex_str_to_rgba`
(ASCII codes: digits 48-57, lowercase letters 97-102, uppercase 65-70). -/
def isHexDigit (c : Char) : Bool :=
  (48 ≤ c.toNat && c.toNat ≤ 57) || (97 ≤ c.toNat && c.toNat ≤ 102) ||
    (65 ≤ c.toNat && c.toNat ≤ 70)

/-- Value of a single hex digit, as computed by `hex::decode`
(`'0'..'9'` ↦ 0..9, `'a'..'f'` ↦ 10..15, `'A'..'F'` ↦ 10..15). -/
def hexVal (c : Char) : Nat :=
  if 48 ≤ c.toNat && c.toNat ≤ 57 then c.toNat - 48
  else if 97 ≤ c.toNat && c.toNat ≤ 102 then c.toNat - 87
  else if 65 ≤ c.toNat && c.toNat ≤ 70 then c.toNat - 55
  else 0

/-- `regex::Regex::new(r"#([a-fA-F0-9]{6})").is_match(s)`: the pattern is
unanchored, so `is_match` holds iff SOME position of `s` starts with `'#'`
followed by at least 6 characters of the class `[a-fA-F0-9]`. -/
def reMatch : List Char → Bool
  | [] => false
  | c :: rest =>
    (c == '#' && decide (6 ≤ rest.length) && (rest.take 6).all isHexDigit)
      || reMatch rest

/-- `hex::decode` applied to one chunk produced by `.chunks(2)`, keeping the
first decoded byte (`[0]` in the source). A 1-character chunk has odd
length, which `hex::decode` rejects; a chunk with a non-hex character is
also rejected. -/
def decodeChunk : List Char → Option Nat
  | [a, b] =>
    if isHexDigit a && isHexDigit b then some (16 * hexVal a + hexVal b)
    else none
  | _ => none

/-- `.chunks(2)`: consecutive pairs, with a possibly shorter last chunk. -/
def chunks2 : List Char → List (List Char)
  | [] => []
  | [a] => [[a]]
  | a :: b :: rest => [a, b] :: chunks2 rest

/-- The `.map(|chunk| hex::decode(chunk).expect(..)[0]).collect()` pipeline:
every chunk must decode, otherwise the `expect` panics (`none` here). -/
def decodeChunks : List (List Char) → Option (List Nat)
  | [] => some []
  | c :: cs =>
    match decodeChunk c, decodeChunks cs with
    | some v, some vs => some (v :: vs)
    | _, _ => none

/-- `hex_str_to_rgba` (src/glyphy/mod.rs lines 21-42): check the unanchored
regex, then split `s[1..]` into 2-character chunks, decode each, and return
`[rgb[0], rgb[1], rgb[2], 255.0]`. -/
def hex_str_to_rgba (s : List Char) : Except ParseError (List ℚ) :=
  if reMatch s then
    match decodeChunks (chunks2 s.tail) with
    | some rgb =>
      .ok [(rgb.getD 0 0 : ℚ), (rgb.getD 1 0 : ℚ), (rgb.getD 2 0 : ℚ), 255]
    | none => .error .DecodeError
  else .error .InvalidFormat

/-- `hex_str_to_normalized_rgba` (lines 44-51): divide every channel of the
byte-scale result, alpha included, by 255.0. -/
def hex_str_to_normalized_rgba (s : List Char) : Except ParseError (List ℚ) :=
  (hex_str_to_rgba s).map (fun rgba => rgba.map (fun v => v / 255))

/-- `TextRenderable`: a text with a resolved color and a font scale. -/
structure TextRenderable where
  text : List Char
  color : List ℚ
  scale : ℚ
deriving DecidableEq

/-- `texts.iter().max_by_key(|t| t.text.len())`: Rust's `max_by_key`
returns `none` on an empty iterator and, when several elements have the
maximal key, the LAST such element. -/
def maxByTextLen : List TextRenderable → Option TextRenderable
  | [] => none
  | t :: ts =>
    match maxByTextLen ts with
    | none => some t
    | some m => if m.text.length ≥ t.text.length then some m else some t

/-- The positioning loop of `Glyphy::render`: entry `i` is placed at
`(W - offset_x, 30.0 + offset_y)` where `offset_y` starts at `0.0` and
grows by each placed entry's scale. -/
def placeEntries (offX W : ℚ) : List TextRenderable → ℚ →
    List (TextRenderable × ℚ × ℚ)
  | [], _ => []
  | t :: ts, oy => (t, W - offX, 30 + oy) :: placeEntries offX W ts (oy + t.scale)

/-- The layout computation of `Glyphy::render` (lines 138-153), the spec's
`plan`: pick the reference entry with `max_by_key`, compute
`offset_x = max_x.scale * 1.5 * max_x.text.len()`, and position every
entry; `viewportWidth` is `size.0`. -/
def plan (texts : List TextRenderable) (W : ℚ) :
    Except LayoutError (List (TextRenderable × ℚ × ℚ)) :=
  match maxByTextLen texts with
  | none => .error .LayoutPrecondition
  | some mx => .ok (placeEntries (mx.scale * (3 / 2) * (mx.text.length : ℚ)) W texts 0)

/-- Case-equivalence of two characters as hex digits: both lie in the
regex class `[a-fA-F0-9]` and they are either equal or an ASCII
lowercase/uppercase pair (codes differing by 32). -/
def caseEquivb (c c' : Char) : Bool :=
  isHexDigit c && isHexDigit c' &&
    (c.toNat == c'.toNat || c.toNat + 32 == c'.toNat || c'.toNat + 32 == c.toNat)

/-- Pointwise case-equivalence of two character lists. -/
def caseEquivList : List Char → List Char → Bool
  | [], [] => true
  | a :: as, b :: bs => caseEquivb a b && caseEquivList as bs
  | _, _ => false

/-! ### Helper lemmas about the hex parser -/

theorem hexVal_le_15 {c : Char} (h : isHexDigit c = true) : hexVal c ≤ 15 := by
  simp only [isHexDigit, Bool.or_eq_true, Bool.and_eq_true, decide_eq_true_eq] at h
  unfold hexVal
  split_ifs with h1 h2 h3 <;>
    simp only [Bool.and_eq_true, decide_eq_true_eq] at * <;> omega

theorem decodeChunk_hex {a b : Char} (ha : isHexDigit a = true)
    (hb : isHexDigit b = true) :
    decodeChunk [a, b] = some (16 * hexVal a + hexVal b) := by
  simp [decodeChunk, ha, hb]

theorem decodeChunk_le_255 {l : List Char} {v : ℕ}
    (h : decodeChunk l = some v) : v ≤ 255 := by
  match l with
  | [] => simp [decodeChunk] at h
  | [a] => simp [decodeChunk] at h
  | a :: b :: c :: rest => simp [decodeChunk] at h
  | [a, b] =>
    simp only [decodeChunk] at h
    split at h
    · rename_i hab
      simp only [Bool.and_eq_true] at hab
      have := hexVal_le_15 hab.1
      have := hexVal_le_15 hab.2
      simp only [Option.some.injEq] at h
      omega
    · simp at h

theorem decodeChunks_le_255 :
    ∀ {cs : List (List Char)} {vs : List ℕ},
      decodeChunks cs = some vs → ∀ v ∈ vs, v ≤ 255 := by
  intro cs
  induction cs with
  | nil =>
    intro vs h v hv
    simp only [decodeChunks, Option.some.injEq] at h
    subst h
    simp at hv
  | cons c cs ih =>
    intro vs h v hv
    simp only [decodeChunks] at h
    cases hc : decodeChunk c with
    | none => rw [hc] at h; simp at h
    | some w =>
      rw [hc] at h
      cases hcs : decodeChunks cs with
      | none => rw [hcs] at h; simp at h
      | some ws =>
        rw [hcs] at h
        simp only [Option.some.injEq] at h
        subst h
        rcases List.mem_cons.mp hv with rfl | hv'
        · exact decodeChunk_le_255 hc
        · exact ih hcs v hv'

theorem getD_le_255 {vs : List ℕ} (h : ∀ v ∈ vs, v ≤ 255) (i : ℕ) :
    vs.getD i 0 ≤ 255 := by
  rw [List.getD_eq_getElem?_getD]
  cases hv : vs[i]? with
  | none => simp
  | some v => simpa using h v (List.mem_iff_getElem?.mpr ⟨i, hv⟩)

theorem hex_str_to_rgba_sixHex (d₁ d₂ d₃ d₄ d₅ d₆ : Char)
    (h₁ : isHexDigit d₁ = true) (h₂ : isHexDigit d₂ = true)
    (h₃ : isHexDigit d₃ = true) (h₄ : isHexDigit d₄ = true)
    (h₅ : isHexDigit d₅ = true) (h₆ : isHexDigit d₆ = true) :
    hex_str_to_rgba ['#', d₁, d₂, d₃, d₄, d₅, d₆] =
      .ok [((16 * hexVal d₁ + hexVal d₂ : ℕ) : ℚ),
           ((16 * hexVal d₃ + hexVal d₄ : ℕ) : ℚ),
           ((16 * hexVal d₅ + hexVal d₆ : ℕ) : ℚ), 255] := by
  simp [hex_str_to_rgba, reMatch, chunks2, decodeChunks, decodeChunk,
    h₁, h₂, h₃, h₄, h₅, h₆]

theorem hex_str_to_rgba_shape {s : List Char} {c : List ℚ}
    (h : hex_str_to_rgba s = .ok c) :
    ∃ r g b : ℕ, r ≤ 255 ∧ g ≤ 255 ∧ b ≤ 255 ∧
      c = [(r : ℚ), (g : ℚ), (b : ℚ), 255] := by
  unfold hex_str_to_rgba at h
  split at h
  · cases hd : decodeChunks (chunks2 s.tail) with
    | none => rw [hd] at h; simp at h
    | some rgb =>
      rw [hd] at h
      simp only [Except.ok.injEq] at h
      have hb := decodeChunks_le_255 hd
      exact ⟨rgb.getD 0 0, rgb.getD 1 0, rgb.getD 2 0,
        getD_le_255 hb 0, getD_le_255 hb 1, getD_le_255 hb 2, h.symm⟩
  · simp at h

/-! ### Claims about the color parser -/

/-- Claim C1: for every input `'#'` followed by exactly 6 hex digits,
`hex_str_to_rgba` returns the color whose R, G, B channels are the
base-16 values of the three consecutive 2-character chunks after `'#'`
(most-significant digit first in each chunk) and whose alpha is exactly
255. -/
theorem hex_str_to_rgba_valid (d₁ d₂ d₃ d₄ d₅ d₆ : Char)
    (h₁ : isHexDigit d₁ = true) (h₂ : isHexDigit d₂ = true)
    (h₃ : isHexDigit d₃ = true) (h₄ : isHexDigit d₄ = true)
    (h₅ : isHexDigit d₅ = true) (h₆ : isHexDigit d₆ = true) :
    hex_str_to_rgba ['#', d₁, d₂, d₃, d₄, d₅, d₆] =
      .ok [((16 * hexVal d₁ + hexVal d₂ : ℕ) : ℚ),
           ((16 * hexVal d₃ + hexVal d₄ : ℕ) : ℚ),
           ((16 * hexVal d₅ + hexVal d₆ : ℕ) : ℚ), 255] :=
  hex_str_to_rgba_sixHex d₁ d₂ d₃ d₄ d₅ d₆ h₁ h₂ h₃ h₄ h₅ h₆

/-- Witness for C1 at the spec's concrete case `"#af4573"`. -/
theorem hex_str_to_rgba_valid_witness :
    isHexDigit 'a' = true ∧
    hex_str_to_rgba ['#', 'a', 'f', '4', '5', '7', '3'] =
      .ok [175, 69, 115, 255] :=
  ⟨by decide,
    (hex_str_to_rgba_valid 'a' 'f' '4' '5' '7' '3' (by decide) (by decide)
      (by decide) (by decide) (by decide) (by decide)).trans (by rfl)⟩

/-- Counterexample to claim C2: the spec's own example `"#af45733"`
(7 hex digits) does NOT fail with `InvalidFormat`: the unanchored regex
accepts it and the parser then fails while decoding the odd trailing
chunk `"3"`, i.e. with `DecodeError`. -/
theorem seven_digit_not_invalid_format :
    hex_str_to_rgba ['#', 'a', 'f', '4', '5', '7', '3', '3'] =
      .error .DecodeError ∧
    hex_str_to_rgba ['#', 'a', 'f', '4', '5', '7', '3', '3'] ≠
      .error .InvalidFormat := by
  have h : hex_str_to_rgba ['#', 'a', 'f', '4', '5', '7', '3', '3'] =
      .error .DecodeError := by rfl
  exact ⟨h, by simp [h]⟩

/-- Claim C2 (amended): every input string that does not contain `'#'`
immediately followed by 6 hex digits as a substring — in particular one
with no `'#'`, with fewer than 6 hex digits after every `'#'`, or with a
non-hex character breaking every candidate run — fails with
`InvalidFormat`. (Deviating inputs that do contain such a substring are
not rejected by the format check.) -/
theorem no_match_invalid_format (s : List Char) (h : reMatch s = false) :
    hex_str_to_rgba s = .error .InvalidFormat := by
  simp [hex_str_to_rgba, h]

/-- Witness for the amended C2 at the spec's example `"af4573"`
(missing `'#'`). -/
theorem no_match_invalid_format_witness :
    reMatch ['a', 'f', '4', '5', '7', '3'] = false ∧
    hex_str_to_rgba ['a', 'f', '4', '5', '7', '3'] = .error .InvalidFormat :=
  ⟨by decide, no_match_invalid_format _ (by decide)⟩

/-- Counterexample to claim C6: the input `"#aabbccd"` passes the format
pre-check (its first 7 characters contain `'#'` plus 6 hex digits), yet
the parser fails with `DecodeError`, because `s[1..] = "aabbccd"` has odd
length and its last 1-character chunk `"d"` is undecodable. -/
theorem decode_error_reachable :
    reMatch ['#', 'a', 'a', 'b', 'b', 'c', 'c', 'd'] = true ∧
    hex_str_to_rgba ['#', 'a', 'a', 'b', 'b', 'c', 'c', 'd'] =
      .error .DecodeError :=
  ⟨by decide, by rfl⟩

/-- Claim C6 (amended): for every input that is exactly `'#'` followed by
6 hex digits, the `DecodeError` branch is unreachable (every 2-character
chunk decodes); but inputs that merely pass the unanchored format check
without having this exact shape can reach `DecodeError`. -/
theorem exact_format_no_decode_error (d₁ d₂ d₃ d₄ d₅ d₆ : Char)
    (h₁ : isHexDigit d₁ = true) (h₂ : isHexDigit d₂ = true)
    (h₃ : isHexDigit d₃ = true) (h₄ : isHexDigit d₄ = true)
    (h₅ : isHexDigit d₅ = true) (h₆ : isHexDigit d₆ = true) :
    hex_str_to_rgba ['#', d₁, d₂, d₃, d₄, d₅, d₆] ≠
      .error .DecodeError := by
  rw [hex_str_to_rgba_sixHex d₁ d₂ d₃ d₄ d₅ d₆ h₁ h₂ h₃ h₄ h₅ h₆]
  simp

/-- Witness for the amended C6 at `"#af4573"`. -/
theorem exact_format_no_decode_error_witness :
    isHexDigit 'f' = true ∧
    hex_str_to_rgba ['#', 'a', 'f', '4', '5', '7', '3'] ≠
      .error .DecodeError :=
  ⟨by decide,
    exact_format_no_decode_error 'a' 'f' '4' '5' '7' '3' (by decide)
      (by decide) (by decide) (by decide) (by decide) (by decide)⟩

/-- Claim C10: the 9-character input `"#aabbccdd"` is not of the form
`'#'` + exactly 6 hex digits, yet the unanchored format check passes and
`hex_str_to_rgba` returns the color decoded from the 2-character chunks
starting at index 1, namely `[170.0, 187.0, 204.0, 255.0]`, instead of
reporting any error. -/
theorem substring_match_parses :
    (['#', 'a', 'a', 'b', 'b', 'c', 'c', 'd', 'd'] : List Char).length = 9 ∧
    reMatch ['#', 'a', 'a', 'b', 'b', 'c', 'c', 'd', 'd'] = true ∧
    hex_str_to_rgba ['#', 'a', 'a', 'b', 'b', 'c', 'c', 'd', 'd'] =
      .ok [170, 187, 204, 255] :=
  ⟨rfl, by decide, by rfl⟩

/-- Claim C5: whenever `hex_str_to_rgba` succeeds, the normalized parse
succeeds with every channel (alpha included) divided by 255.0; the
normalized alpha is exactly 1.0 and every normalized channel lies in
[0.0, 1.0]. -/
theorem hex_normalized_is_div (s : List Char) (c : List ℚ)
    (h : hex_str_to_rgba s = .ok c) :
    hex_str_to_normalized_rgba s = .ok (c.map (fun v => v / 255)) ∧
    (c.map (fun v => v / 255)).getD 3 0 = 1 ∧
    ∀ v ∈ c.map (fun v => v / 255), 0 ≤ v ∧ v ≤ 1 := by
  obtain ⟨r, g, b, hr, hg, hb, rfl⟩ := hex_str_to_rgba_shape h
  refine ⟨by simp [hex_str_to_normalized_rgba, h, Except.map], by norm_num, ?_⟩
  intro v hv
  simp only [List.map_cons, List.map_nil, List.mem_cons, List.not_mem_nil,
    or_false] at hv
  have h255 : (0 : ℚ) < 255 := by norm_num
  rcases hv with rfl | rfl | rfl | rfl
  · exact ⟨div_nonneg (Nat.cast_nonneg r) (le_of_lt h255),
      (div_le_one h255).mpr (by exact_mod_cast hr)⟩
  · exact ⟨div_nonneg (Nat.cast_nonneg g) (le_of_lt h255),
      (div_le_one h255).mpr (by exact_mod_cast hg)⟩
  · exact ⟨div_nonneg (Nat.cast_nonneg b) (le_of_lt h255),
      (div_le_one h255).mpr (by exact_mod_cast hb)⟩
  · norm_num

/-- Witness for C5 at `"#af4573"`. -/
theorem hex_normalized_is_div_witness :
    hex_str_to_rgba ['#', 'a', 'f', '4', '5', '7', '3'] =
      .ok [175, 69, 115, 255] ∧
    (hex_str_to_normalized_rgba ['#', 'a', 'f', '4', '5', '7', '3'] =
        .ok (([175, 69, 115, 255] : List ℚ).map (fun v => v / 255)) ∧
      (([175, 69, 115, 255] : List ℚ).map (fun v => v / 255)).getD 3 0 = 1 ∧
      ∀ v ∈ ([175, 69, 115, 255] : List ℚ).map (fun v => v / 255),
        0 ≤ v ∧ v ≤ 1) :=
  ⟨by rfl, hex_normalized_is_div _ _ (by rfl)⟩

theorem caseEquivb_hex {c c' : Char} (h : caseEquivb c c' = true) :
    isHexDigit c = true ∧ isHexDigit c' = true := by
  simp only [caseEquivb, Bool.and_eq_true] at h
  exact ⟨h.1.1, h.1.2⟩

theorem hexVal_caseEquiv {c c' : Char} (h : caseEquivb c c' = true) :
    hexVal c = hexVal c' := by
  simp only [caseEquivb, isHexDigit, Bool.and_eq_true, Bool.or_eq_true,
    beq_iff_eq, decide_eq_true_eq] at h
  unfold hexVal
  split_ifs <;>
    simp only [Bool.and_eq_true, decide_eq_true_eq, Bool.not_eq_true,
      Bool.and_eq_false_iff, decide_eq_false_iff_not, not_le] at * <;> omega

theorem caseEquivList_length :
    ∀ {l l' : List Char}, caseEquivList l l' = true → l.length = l'.length
  | [], [], _ => rfl
  | _ :: _, _ :: _, h => by
    simp only [caseEquivList, Bool.and_eq_true] at h
    simp [caseEquivList_length h.2]
  | [], _ :: _, h => by simp [caseEquivList] at h
  | _ :: _, [], h => by simp [caseEquivList] at h

/-- Claim C9: the parser is case-insensitive over hex digits: two inputs
`'#'` + 6 hex digits that agree pointwise up to letter case (each pair of
characters equal, or an ASCII upper/lowercase pair) are both accepted by
the format check and parse to the identical color. -/
theorem parse_case_insensitive (l l' : List Char) (hlen : l.length = 6)
    (h : caseEquivList l l' = true) :
    ∃ c, hex_str_to_rgba ('#' :: l) = .ok c ∧
      hex_str_to_rgba ('#' :: l') = .ok c := by
  have hlen' : l'.length = 6 := (caseEquivList_length h).symm.trans hlen
  rcases l with _ | ⟨d₁, _ | ⟨d₂, _ | ⟨d₃, _ | ⟨d₄, _ | ⟨d₅, _ | ⟨d₆, _ | ⟨d₇, t⟩⟩⟩⟩⟩⟩⟩ <;>
    simp only [List.length_nil, List.length_cons] at hlen <;> try omega
  rcases l' with _ | ⟨e₁, _ | ⟨e₂, _ | ⟨e₃, _ | ⟨e₄, _ | ⟨e₅, _ | ⟨e₆, _ | ⟨e₇, t'⟩⟩⟩⟩⟩⟩⟩ <;>
    simp only [List.length_nil, List.length_cons] at hlen' <;> try omega
  simp only [caseEquivList, Bool.and_eq_true] at h
  obtain ⟨⟨⟨⟨⟨⟨g₁, g₂⟩, g₃⟩, g₄⟩, g₅⟩, g₆⟩, -⟩ :
      (((((caseEquivb d₁ e₁ = true ∧ caseEquivb d₂ e₂ = true) ∧
        caseEquivb d₃ e₃ = true) ∧ caseEquivb d₄ e₄ = true) ∧
        caseEquivb d₅ e₅ = true) ∧ caseEquivb d₆ e₆ = true) ∧ True := by
    tauto
  refine ⟨_, hex_str_to_rgba_sixHex d₁ d₂ d₃ d₄ d₅ d₆
    (caseEquivb_hex g₁).1 (caseEquivb_hex g₂).1 (caseEquivb_hex g₃).1
    (caseEquivb_hex g₄).1 (caseEquivb_hex g₅).1 (caseEquivb_hex g₆).1, ?_⟩
  rw [hex_str_to_rgba_sixHex e₁ e₂ e₃ e₄ e₅ e₆
    (caseEquivb_hex g₁).2 (caseEquivb_hex g₂).2 (caseEquivb_hex g₃).2
    (caseEquivb_hex g₄).2 (caseEquivb_hex g₅).2 (caseEquivb_hex g₆).2,
    hexVal_caseEquiv g₁, hexVal_caseEquiv g₂, hexVal_caseEquiv g₃,
    hexVal_caseEquiv g₄, hexVal_caseEquiv g₅, hexVal_caseEquiv g₆]

/-- Witness for C9: `"#af4573"` against its uppercased form `"#AF4573"`. -/
theorem parse_case_insensitive_witness :
    (['a', 'f', '4', '5', '7', '3'] : List Char).length = 6 ∧
    caseEquivList ['a', 'f', '4', '5', '7', '3'] ['A', 'F', '4', '5', '7', '3']
      = true ∧
    ∃ c, hex_str_to_rgba ['#', 'a', 'f', '4', '5', '7', '3'] = .ok c ∧
      hex_str_to_rgba ['#', 'A', 'F', '4', '5', '7', '3'] = .ok c :=
  ⟨rfl, by decide,
    parse_case_insensitive ['a', 'f', '4', '5', '7', '3']
      ['A', 'F', '4', '5', '7', '3'] rfl (by decide)⟩

/-! ### Helper lemmas about the layout planner -/

theorem maxByTextLen_eq_none {ts : List TextRenderable}
    (h : maxByTextLen ts = none) : ts = [] := by
  cases ts with
  | nil => rfl
  | cons t ts =>
    exfalso
    cases hm : maxByTextLen ts with
    | none => simp [maxByTextLen, hm] at h
    | some m =>
      simp only [maxByTextLen, hm] at h
      split at h <;> simp at h

theorem maxByTextLen_isSome {ts : List TextRenderable} (h : ts ≠ []) :
    ∃ r, maxByTextLen ts = some r := by
  cases hm : maxByTextLen ts with
  | none => exact absurd (maxByTextLen_eq_none hm) h
  | some r => exact ⟨r, rfl⟩

theorem placeEntries_length (offX W : ℚ) :
    ∀ (ts : List TextRenderable) (oy : ℚ),
      (placeEntries offX W ts oy).length = ts.length
  | [], _ => rfl
  | t :: ts, oy => by
    simp [placeEntries, placeEntries_length offX W ts (oy + t.scale)]

theorem placeEntries_getElem? (offX W : ℚ) :
    ∀ (ts : List TextRenderable) (oy : ℚ) (i : ℕ) (t : TextRenderable),
      ts[i]? = some t →
      (placeEntries offX W ts oy)[i]? =
        some (t, W - offX, (30 + oy) + ((ts.take i).map TextRenderable.scale).sum)
  | [], _, i, t, h => by simp at h
  | t' :: ts, oy, 0, t, h => by
    simp only [List.getElem?_cons_zero, Option.some.injEq] at h
    subst h
    simp [placeEntries]
  | t' :: ts, oy, i + 1, t, h => by
    simp only [List.getElem?_cons_succ] at h
    have ih := placeEntries_getElem? offX W ts (oy + t'.scale) i t h
    simp only [placeEntries, List.getElem?_cons_succ, ih, List.take_succ_cons,
      List.map_cons, List.sum_cons, Option.some.injEq, Prod.mk.injEq,
      true_and]
    ring

/-! ### Claims about the layout planner -/

/-- Claim C3: for every non-empty entry sequence, `plan` succeeds and
assigns every entry the same x position `W - offset_x`, where
`offset_x = r.scale * 1.5 * length(r.text)` for the reference entry `r`
chosen by the planner, and assigns the i-th entry (in input order)
`y = 30.0 +` the sum of the scales of all preceding entries. -/
theorem plan_positions (texts : List TextRenderable) (W : ℚ)
    (h : texts ≠ []) :
    ∃ r pl, maxByTextLen texts = some r ∧ plan texts W = .ok pl ∧
      pl.length = texts.length ∧
      ∀ (i : ℕ) (t : TextRenderable), texts[i]? = some t →
        pl[i]? = some (t, W - r.scale * (3 / 2) * (r.text.length : ℚ),
          30 + ((texts.take i).map TextRenderable.scale).sum) := by
  obtain ⟨r, hr⟩ := maxByTextLen_isSome h
  refine ⟨r, placeEntries (r.scale * (3 / 2) * (r.text.length : ℚ)) W texts 0,
    hr, by simp [plan, hr], placeEntries_length _ _ _ _, ?_⟩
  intro i t ht
  have := placeEntries_getElem? (r.scale * (3 / 2) * (r.text.length : ℚ))
    W texts 0 i t ht
  simpa using this

/-- Witness for C3: a concrete two-entry layout with viewport width 1000;
the reference entry is the longer second entry, so
`offset_x = 30 * 1.5 * 14 = 630` and both entries get `x = 370`. -/
theorem plan_positions_witness :
    ([⟨['s', 'h', 'o', 'r', 't'], [0, 0, 0, 255], 20⟩,
      ⟨['m', 'u', 'c', 'h', 'l', 'o', 'n', 'g', 'e', 'r', 't', 'e', 'x', 't'],
        [0, 0, 0, 255], 30⟩] : List TextRenderable) ≠ [] ∧
    ∃ r pl,
      maxByTextLen
        [⟨['s', 'h', 'o', 'r', 't'], [0, 0, 0, 255], 20⟩,
         ⟨['m', 'u', 'c', 'h', 'l', 'o', 'n', 'g', 'e', 'r', 't', 'e', 'x', 't'],
           [0, 0, 0, 255], 30⟩] = some r ∧
      plan
        [⟨['s', 'h', 'o', 'r', 't'], [0, 0, 0, 255], 20⟩,
         ⟨['m', 'u', 'c', 'h', 'l', 'o', 'n', 'g', 'e', 'r', 't', 'e', 'x', 't'],
           [0, 0, 0, 255], 30⟩] 1000 = .ok pl ∧
      pl.length =
        ([⟨['s', 'h', 'o', 'r', 't'], [0, 0, 0, 255], 20⟩,
          ⟨['m', 'u', 'c', 'h', 'l', 'o', 'n', 'g', 'e', 'r', 't', 'e', 'x', 't'],
            [0, 0, 0, 255], 30⟩] : List TextRenderable).length ∧
      ∀ (i : ℕ) (t : TextRenderable),
        ([⟨['s', 'h', 'o', 'r', 't'], [0, 0, 0, 255], 20⟩,
          ⟨['m', 'u', 'c', 'h', 'l', 'o', 'n', 'g', 'e', 'r', 't', 'e', 'x', 't'],
            [0, 0, 0, 255], 30⟩] : List TextRenderable)[i]? = some t →
        pl[i]? = some (t, 1000 - r.scale * (3 / 2) * (r.text.length : ℚ),
          30 + ((([⟨['s', 'h', 'o', 'r', 't'], [0, 0, 0, 255], 20⟩,
            ⟨['m', 'u', 'c', 'h', 'l', 'o', 'n', 'g', 'e', 'r', 't', 'e', 'x', 't'],
              [0, 0, 0, 255], 30⟩] : List TextRenderable).take i).map
            TextRenderable.scale).sum) :=
  ⟨by simp, plan_positions _ 1000 (by simp)⟩

/-- Counterexample to claim C4: two entries of equal text length but
different scales. The claim's tie-break ("first such entry") would make
the first entry (scale 1) the reference, giving
`offset_x = 1 * 1.5 * 2 = 3` and `x = 100 - 3 = 97`; but `max_by_key`
returns the LAST maximal entry (scale 2), so `offset_x = 6` and the plan
places both entries at `x = 94 ≠ 97`. -/
theorem maxByTextLen_tie_counterexample :
    maxByTextLen
      [⟨['a', 'b'], [0, 0, 0, 255], 1⟩,
       (⟨['c', 'd'], [0, 0, 0, 255], 2⟩ : TextRenderable)] =
      some ⟨['c', 'd'], [0, 0, 0, 255], 2⟩ ∧
    (⟨['c', 'd'], [0, 0, 0, 255], 2⟩ : TextRenderable) ≠
      ⟨['a', 'b'], [0, 0, 0, 255], 1⟩ ∧
    (⟨['a', 'b'], [0, 0, 0, 255], 1⟩ : TextRenderable).text.length =
      (⟨['c', 'd'], [0, 0, 0, 255], 2⟩ : TextRenderable).text.length ∧
    plan
      [⟨['a', 'b'], [0, 0, 0, 255], 1⟩,
       (⟨['c', 'd'], [0, 0, 0, 255], 2⟩ : TextRenderable)] 100 =
      .ok [(⟨['a', 'b'], [0, 0, 0, 255], 1⟩, 94, 30),
           (⟨['c', 'd'], [0, 0, 0, 255], 2⟩, 94, 31)] ∧
    (94 : ℚ) ≠ 100 -
      (⟨['a', 'b'], [0, 0, 0, 255], 1⟩ : TextRenderable).scale * (3 / 2) *
        ((⟨['a', 'b'], [0, 0, 0, 255], 1⟩ : TextRenderable).text.length : ℚ) := by
  refine ⟨by rfl, by decide, by rfl, ?_, by norm_num⟩
  simp only [plan, maxByTextLen, placeEntries]
  norm_num

/-- Claim C4 (amended): the reference entry chosen by the planner is an
entry of maximal text length, and when several entries share the maximal
length the LAST such entry in iteration order is chosen (Rust's
`max_by_key` tie-breaking), not the first. -/
theorem maxByTextLen_last_max (texts : List TextRenderable)
    (h : texts ≠ []) :
    ∃ (r : TextRenderable) (i : ℕ),
      maxByTextLen texts = some r ∧ texts[i]? = some r ∧
      (∀ (j : ℕ) (u : TextRenderable), texts[j]? = some u →
        u.text.length ≤ r.text.length) ∧
      (∀ (j : ℕ) (u : TextRenderable), texts[j]? = some u → i < j →
        u.text.length < r.text.length) := by
  induction texts with
  | nil => exact absurd rfl h
  | cons t ts ih =>
    by_cases hts0 : ts = []
    · subst hts0
      refine ⟨t, 0, by simp [maxByTextLen], by simp, ?_, ?_⟩
      · intro j u hj
        cases j with
        | zero => simp_all
        | succ j => simp at hj
      · intro j u hj hij
        cases j with
        | zero => omega
        | succ j => simp at hj
    · obtain ⟨r, i, hr, hidx, hmax, hlast⟩ := ih hts0
      by_cases hc : t.text.length ≤ r.text.length
      · refine ⟨r, i + 1, ?_, ?_, ?_, ?_⟩
        · simp [maxByTextLen, hr, hc]
        · simpa using hidx
        · intro j u hj
          cases j with
          | zero =>
            simp only [List.getElem?_cons_zero, Option.some.injEq] at hj
            subst hj
            exact hc
          | succ j =>
            simp only [List.getElem?_cons_succ] at hj
            exact hmax j u hj
        · intro j u hj hij
          cases j with
          | zero => omega
          | succ j =>
            simp only [List.getElem?_cons_succ] at hj
            exact hlast j u hj (by omega)
      · push_neg at hc
        refine ⟨t, 0, ?_, by simp, ?_, ?_⟩
        · simp only [maxByTextLen, hr]
          simp [Nat.not_le.mpr hc]
        · intro j u hj
          cases j with
          | zero =>
            simp only [List.getElem?_cons_zero, Option.some.injEq] at hj
            subst hj
            exact Nat.le_refl _
          | succ j =>
            simp only [List.getElem?_cons_succ] at hj
            exact Nat.le_of_lt (Nat.lt_of_le_of_lt (hmax j u hj) hc)
        · intro j u hj hij
          cases j with
          | zero => omega
          | succ j =>
            simp only [List.getElem?_cons_succ] at hj
            exact Nat.lt_of_le_of_lt (hmax j u hj) hc

/-- Witness for the amended C4 on a concrete two-entry tie. -/
theorem maxByTextLen_last_max_witness :
    ([⟨['a', 'b'], [0, 0, 0, 255], 1⟩,
      ⟨['c', 'd'], [0, 0, 0, 255], 2⟩] : List TextRenderable) ≠ [] ∧
    ∃ (r : TextRenderable) (i : ℕ),
      maxByTextLen
        [⟨['a', 'b'], [0, 0, 0, 255], 1⟩,
         ⟨['c', 'd'], [0, 0, 0, 255], 2⟩] = some r ∧
      ([⟨['a', 'b'], [0, 0, 0, 255], 1⟩,
        ⟨['c', 'd'], [0, 0, 0, 255], 2⟩] : List TextRenderable)[i]? =
        some r ∧
      (∀ (j : ℕ) (u : TextRenderable),
        ([⟨['a', 'b'], [0, 0, 0, 255], 1⟩,
          ⟨['c', 'd'], [0, 0, 0, 255], 2⟩] : List TextRenderable)[j]? =
          some u → u.text.length ≤ r.text.length) ∧
      (∀ (j : ℕ) (u : TextRenderable),
        ([⟨['a', 'b'], [0, 0, 0, 255], 1⟩,
          ⟨['c', 'd'], [0, 0, 0, 255], 2⟩] : List TextRenderable)[j]? =
          some u → i < j → u.text.length < r.text.length) :=
  ⟨by simp, maxByTextLen_last_max _ (by simp)⟩

/-- Claim C7: when the entry sequence passed to the layout planner is
empty, it fails with `LayoutPrecondition` rather than returning a plan
(the source's `.max_by_key(..).unwrap()` fails on an empty vector). -/
theorem plan_empty_precondition (W : ℚ) :
    plan [] W = .error .LayoutPrecondition := rfl

/-- Claim C8: `plan` is deterministic and side-effect free: two calls
with equal entry sequences and equal viewport widths yield equal layout
plans (it is a pure function of its two arguments). -/
theorem plan_deterministic (t₁ t₂ : List TextRenderable) (W₁ W₂ : ℚ)
    (h₁ : t₁ = t₂) (h₂ : W₁ = W₂) : plan t₁ W₁ = plan t₂ W₂ := by
  rw [h₁, h₂]

/-- Witness for C8 at a concrete input. -/
theorem plan_deterministic_witness :
    ([⟨['a'], [0, 0, 0, 255], 1⟩] : List TextRenderable) =
      [⟨['a'], [0, 0, 0, 255], 1⟩] ∧
    (5 : ℚ) = 5 ∧
    plan [⟨['a'], [0, 0, 0, 255], 1⟩] 5 =
      plan [⟨['a'], [0, 0, 0, 255], 1⟩] 5 :=
  ⟨rfl, rfl, plan_deterministic _ _ _ _ rfl rfl⟩
